import Mathlib

/-!
Verification of the heuristic audit core of SOAR (`advisor/rules.go`).

The development shallowly embeds the functions `IsIgnoreRule`, `InBlackList`,
`FormatSuggest` and `formatJSON`, together with the heuristic rule catalog
metadata built by `InitHeuristicRules`.  Go strings are modelled as Lean
strings (operating on their character lists), Go `int` as `Int` (with the
64-bit range check of `strconv.Atoi` made explicit), Go maps as association
lists, and the randomized iteration order of a Go `for ... range map` loop as
an explicit `ord : List String` argument that an invocation may instantiate
with any permutation of the map's keys.

External collaborators that `FormatSuggest` calls through narrow interfaces
(the fingerprinter `query.Fingerprint`/`query.Id`, the pretty printer
`ast.Pretty`, `ast.SchemaMetaInfo`, `common.MarkdownEscape`, the score
renderer `common.Score`, `pretty.Sprint`, and the `regexp` library used by
`InBlackList`) are passed in as function parameters, and the conflict
resolver `MergeConflictHeuristicRules`, whose body is not part of the audited
sources, is modelled from the spec as a static pairwise-suppression relation.
-/

/-! ## Go string primitives -/

/-- Drops every leading occurrence of the character `c` (helper for the
semantics of `strings.Trim` and `strings.TrimLeft` with a one-character
cutset). -/
def dropLeadChar (c : Char) : List Char → List Char
  | [] => []
  | x :: xs => if x = c then dropLeadChar c xs else x :: xs

/-- Semantics of Go `strings.TrimLeft(s, cutset)` for a one-character cutset:
all leading occurrences of `c` are removed. -/
def goTrimLeftChar (c : Char) (s : String) : String :=
  ⟨dropLeadChar c s.data⟩

/-- Semantics of Go `strings.TrimRight(s, cutset)` for a one-character
cutset: all trailing occurrences of `c` are removed. -/
def goTrimRightChar (c : Char) (s : String) : String :=
  ⟨(dropLeadChar c s.data.reverse).reverse⟩

/-- Semantics of Go `strings.Trim(s, cutset)` for a one-character cutset:
all leading and all trailing occurrences of `c` are removed. -/
def goTrimChar (c : Char) (s : String) : String :=
  goTrimLeftChar c (goTrimRightChar c s)

/-- Semantics of Go `strings.HasPrefix(s, pre)`, computed on the character
lists (for valid UTF-8 data a character prefix is exactly a byte prefix). -/
def goHasPrefix (s pre : String) : Bool :=
  pre.data.isPrefixOf s.data

/-- Parses a nonempty all-digit character list into a natural number
(the digit-consuming core of Go `strconv.Atoi`). -/
def natFromDigitsAux (acc : Nat) : List Char → Option Nat
  | [] => some acc
  | c :: cs =>
    if 48 ≤ c.toNat ∧ c.toNat ≤ 57 then
      natFromDigitsAux (acc * 10 + (c.toNat - 48)) cs
    else none

/-- Digit-list parser: `none` on an empty list or on any non-digit. -/
def natFromDigits : List Char → Option Nat
  | [] => none
  | l => natFromDigitsAux 0 l

/-- Signed 64-bit parse core of Go `strconv.Atoi`: returns the parsed value
together with a success flag.  On a syntax error Go returns `(0, ErrSyntax)`;
on 64-bit range overflow it returns the clamped bound and `ErrRange` (so the
flag is `false` but the value is the bound). -/
def goAtoiCore (neg : Bool) (ds : List Char) : Int × Bool :=
  match natFromDigits ds with
  | none => (0, false)
  | some n =>
    if neg then
      if n ≤ 9223372036854775808 then (-(n : Int), true)
      else (-9223372036854775808, false)
    else
      if n ≤ 9223372036854775807 then ((n : Int), true)
      else (9223372036854775807, false)

/-- Semantics of Go `strconv.Atoi` on a 64-bit platform: optional sign, then
one or more ASCII digits; the `Bool` reports success (`err == nil`). -/
def goAtoi (s : String) : Int × Bool :=
  match s.data with
  | '+' :: rest => goAtoiCore false rest
  | '-' :: rest => goAtoiCore true rest
  | l => goAtoiCore false l

/-- Byte-lexicographic comparison used by Go `sort.Strings` (on valid UTF-8
this coincides with code-point-lexicographic order). -/
def charListLt : List Char → List Char → Bool
  | [], [] => false
  | [], _ :: _ => true
  | _ :: _, [] => false
  | a :: as, b :: bs =>
    if a.val < b.val then true
    else if b.val < a.val then false
    else charListLt as bs

/-- String comparison for `sort.Strings`. -/
def strLtB (a b : String) : Bool := charListLt a.data b.data

/-- Inserts a string into an ascending list, keeping it ascending. -/
def insertSorted (x : String) : List String → List String
  | [] => [x]
  | y :: ys => if strLtB y x then y :: insertSorted x ys else x :: y :: ys

/-- Semantics of Go `sort.Strings`: ascending byte-lexicographic sort. -/
def sortStrings (l : List String) : List String :=
  l.foldr insertSorted []

/-- Semantics of Go `strings.Join(l, sep)`. -/
def joinSep (sep : String) : List String → String
  | [] => ""
  | [x] => x
  | x :: y :: xs => x ++ sep ++ joinSep sep (y :: xs)

/-- Semantics of Go `fmt.Sprintln(a, b)` for two string operands: a space is
inserted between operands and a newline is appended. -/
def sprintln2 (a b : String) : String := a ++ " " ++ b ++ "\n"

/-- Semantics of Go `fmt.Sprintln(a)` for one string operand. -/
def sprintln1 (a : String) : String := a ++ "\n"

/-! ## Data model -/

/-- Go struct `advisor.Rule` (`rules.go`): the `Func` field carries the check
function and is never read by the formatting pipeline, so it is omitted. -/
structure Rule where
  Item : String
  Severity : String
  Summary : String
  Content : String
  Case : String
  Position : Int
deriving DecidableEq, Repr

/-- Zero value of the Go `Rule` struct, produced by indexing a map at a
missing key. -/
def zeroRule : Rule := ⟨"", "", "", "", "", 0⟩

/-- The subset of `common.Config` read by the embedded functions. -/
structure Config where
  IgnoreRules : List String
  ReportType : String
  ExplainSQLReportType : String
deriving DecidableEq, Repr

/-- A Go `map[string]Rule`, represented as an association list with unique
keys (all operations below preserve key uniqueness). -/
abbrev GoMap := List (String × Rule)

/-- Deletes a key (Go `delete(m, k)`). -/
def mapErase (m : GoMap) (k : String) : GoMap :=
  m.filter (fun kv => kv.1 ≠ k)

/-- Sets a key to a value (Go `m[k] = v`), keeping keys unique. -/
def mapInsert (m : GoMap) (k : String) (v : Rule) : GoMap :=
  mapErase m k ++ [(k, v)]

/-- Reads a key (Go `v, ok := m[k]`). -/
def mapLookup (m : GoMap) (k : String) : Option Rule :=
  (m.find? (fun kv => kv.1 == k)).map Prod.snd

/-- The key set of the map, in representation order. -/
def mapKeys (m : GoMap) : List String := m.map Prod.fst

/-! ## IsIgnoreRule (`rules.go` lines 1215-1225) -/

/-- Loop body of `IsIgnoreRule`: for each configured pattern, trim `'*'` from
both ends (Go `strings.Trim(ir, "*")`), and fire when the trimmed pattern is
a prefix of the code and is neither `"OK"` nor empty. -/
def isIgnoreRuleLoop (rules : List String) (item : String) : Bool :=
  match rules with
  | [] => false
  | ir0 :: rest =>
    if goHasPrefix item (goTrimChar '*' ir0) && goTrimChar '*' ir0 != "OK"
        && goTrimChar '*' ir0 != "" then true
    else isIgnoreRuleLoop rest item

/-- Embedding of `advisor.IsIgnoreRule`. -/
def IsIgnoreRule (cfg : Config) (item : String) : Bool :=
  isIgnoreRuleLoop cfg.IgnoreRules item

/-- Specification-side ignore predicate, written from the spec's words: each
pattern is a prefix glob whose TRAILING `*` is stripped; an empty prefix
matches nothing and the literal `OK` matches nothing.  Used only to compare
against the embedding of the source. -/
def isIgnoreRuleSpec (cfg : Config) (item : String) : Bool :=
  cfg.IgnoreRules.any (fun ir0 =>
    let p := goTrimRightChar '*' ir0
    goHasPrefix item p && p != "OK" && p != "")

/-! ## InBlackList (`rules.go` lines 1230-1248)

The Go `regexp` library is external to the audited sources; it enters the
model as the parameter `reFind`, where `reFind pat sql` is `none` when
`regexp.Compile(pat)` fails and `some out` when it succeeds with
`re.FindString(sql) = out` (Go's `FindString` returns the leftmost match,
and returns the empty string both when there is no match and when the
leftmost match is empty). -/

/-- Loop body of `InBlackList`: literal equality first, then a compiled
case-insensitive regex whose found string must be non-empty. -/
def inBlackListLoop (reFind : String → String → Option String)
    (bl : List String) (sql : String) : Bool :=
  match bl with
  | [] => false
  | r :: rest =>
    if sql == r then true
    else
      match reFind ("(?i)" ++ r) sql with
      | some out => if out != "" then true else inBlackListLoop reFind rest sql
      | none => inBlackListLoop reFind rest sql

/-- Embedding of `advisor.InBlackList`, parameterized by the regexp library. -/
def InBlackList (reFind : String → String → Option String)
    (bl : List String) (sql : String) : Bool :=
  inBlackListLoop reFind bl sql

/-- Specification-side blacklist predicate, written from the spec's words:
true iff some entry equals `sql` literally or matches it as a
case-insensitive regular expression (`matchCI entry sql`).  Used only to
compare against the embedding of the source. -/
def inBlackListSpec (matchCI : String → String → Bool)
    (bl : List String) (sql : String) : Bool :=
  bl.any (fun r => sql == r || matchCI r sql)

/-! ## External collaborators of FormatSuggest -/

/-- External functions invoked by `FormatSuggest` through narrow interfaces.
Modelled from the spec: the fingerprinter (`query.Fingerprint` / `query.Id`),
the pretty printer (`ast.Pretty`), schema extraction (`ast.SchemaMetaInfo`),
markdown escaping (`common.MarkdownEscape`), the score renderer
(`common.Score`) and `pretty.Sprint` are out-of-scope collaborators whose
bodies are not part of the audited sources; each is a deterministic function
of its arguments. -/
structure Externals where
  fingerprint : String → String
  idOf : String → String
  pretty : String → String → String
  schemaMetaInfo : String → String → List String
  markdownEscape : String → String
  scoreStr : Int → String
  prettySprint : Rule → String

/-- Modelled from the spec: the conflict resolver
`MergeConflictHeuristicRules`, whose body is not among the audited sources,
applies a static pairwise suppression relation — for each pair `(a, b)`,
when `a` is present `b` is deleted.  It only ever removes entries. -/
def MergeConflictHeuristicRules (pairs : List (String × String))
    (m : GoMap) : GoMap :=
  pairs.foldl
    (fun acc p => if (mapLookup acc p.1).isSome then mapErase acc p.2 else acc)
    m

/-! ## The merge / OK / ignore pipeline (`rules.go` lines 1269-1297) -/

/-- Merge of the variadic `suggests` maps (lines 1270-1275): later maps win
per key; the inner map iteration order is unobservable because keys within
one map are distinct. -/
def mergeSuggests (suggests : List GoMap) : GoMap :=
  suggests.foldl (fun acc s => s.foldl (fun a kv => mapInsert a kv.1 kv.2) acc) []

/-- The catalog's `OK` sentinel entry (`HeuristicRules["OK"]`). -/
def ruleOK : Rule := ⟨"OK", "L0", "OK", "OK", "OK", 0⟩

/-- Lines 1286-1292 of `FormatSuggest`: guarantee a non-empty finding set by
inserting the `OK` sentinel, then delete `OK` when it is ignored
(`ignoreOK`, line 1279-1284) or outnumbered by real findings. -/
def okAdjust (ignoreOK : Bool) (s0 : GoMap) : GoMap :=
  let s1 := if s0.length < 1 then [("OK", ruleOK)] else s0
  if ignoreOK || s1.length > 1 then mapErase s1 "OK" else s1

/-- Lines 1269-1297 of `FormatSuggest`: merge the input finding sets, apply
conflict resolution, guarantee a non-empty set by inserting `OK`, delete `OK`
when it is ignored or outnumbered, then drop every ignored code. -/
def mergedFindings (cfg : Config) (pairs : List (String × String))
    (suggests : List GoMap) : GoMap :=
  (okAdjust (cfg.IgnoreRules.any (fun r => r == "OK"))
      (MergeConflictHeuristicRules pairs (mergeSuggests suggests))).filter
    (fun kv => !(IsIgnoreRule cfg kv.1))

/-! ## formatJSON (`rules.go` lines 1503-1581) -/

/-- Severity digits as read by `formatJSON` (line 1512):
`strconv.Atoi(strings.TrimLeft(severity, "L"))`. -/
def sevDigitsJSON (s : String) : Int × Bool :=
  goAtoi (goTrimLeftChar 'L' s)

/-- Severity digits as read by the markdown scoring loops (lines 1424, 1458):
`strconv.Atoi(strings.Trim(severity, "L"))`. -/
def sevDigitsMD (s : String) : Int × Bool :=
  goAtoi (goTrimChar 'L' s)

/-- Penalty value a key contributes in the `formatJSON` score loop: the
parsed severity (Go keeps the value `0` that `Atoi` returns alongside a
syntax error and only logs the error). -/
def lvalJSON (m : GoMap) (k : String) : Int :=
  (sevDigitsJSON ((mapLookup m k).getD zeroRule).Severity).1

/-- Whether a key is an `ERR.*` finding with non-empty content ("MySQL
execute failed") in the map. -/
def isErrContent (m : GoMap) (k : String) : Bool :=
  goHasPrefix k "ERR" && ((mapLookup m k).getD zeroRule).Content != ""

/-- One iteration of the `formatJSON` score loop (lines 1511-1521): subtract
`severity * 5`, then reset the score to `0` on an executed-and-failed
`ERR.*` finding. -/
def jsonScoreStep (m : GoMap) (s : Int) (k : String) : Int :=
  let s1 := s - lvalJSON m k * 5
  if isErrContent m k then 0 else s1

/-- The `formatJSON` score (lines 1510-1524): fold the loop over the map in
iteration order `ord`, then clamp below at `0` (there is no upper clamp). -/
def jsonScore (m : GoMap) (ord : List String) : Int :=
  let s := ord.foldl (jsonScoreStep m) 100
  if s < 0 then 0 else s

/-- Go struct `advisor.JSONSuggest`: the stable `json` report surface. -/
structure JSONSuggest where
  ID : String
  Fingerprint : String
  Score : Int
  Sample : String
  Explain : List Rule
  HeuristicRules : List Rule
  IndexRules : List Rule
  Tables : List String
deriving DecidableEq, Repr

/-- Embedding of `formatJSON` up to serialization: the document that is
marshaled.  Each array collects keys by prefix, sorts them with
`sort.Strings`, and maps them back to their rules; the heuristic array skips
`ERR.*` entries with empty content (line 1562). -/
def formatJSONStruct (ext : Externals) (sql db : String) (m : GoMap)
    (ord : List String) : JSONSuggest :=
  let fingerprint := ext.fingerprint sql
  let id := ext.idOf fingerprint
  let expKeys := sortStrings ((mapKeys m).filter (fun k => goHasPrefix k "EXP"))
  let idxKeys := sortStrings ((mapKeys m).filter (fun k => goHasPrefix k "IDX"))
  let heurKeys := sortStrings ((mapKeys m).filter (fun k =>
    !goHasPrefix k "EXP" && !goHasPrefix k "IDX" &&
      !(goHasPrefix k "ERR" && ((mapLookup m k).getD zeroRule).Content == "")))
  { ID := id
    Fingerprint := fingerprint
    Score := jsonScore m ord
    Sample := sql
    Explain := expKeys.map (fun k => (mapLookup m k).getD zeroRule)
    HeuristicRules := heurKeys.map (fun k => (mapLookup m k).getD zeroRule)
    IndexRules := idxKeys.map (fun k => (mapLookup m k).getD zeroRule)
    Tables := ext.schemaMetaInfo sql db }

/-- JSON string escaping for quotes and backslashes. -/
def jsonEscapeChar (c : Char) : String :=
  if c = '"' then "\\\"" else if c = '\\' then "\\\\" else String.singleton c

/-- Escapes a string for embedding in a JSON document. -/
def jsonEscape (s : String) : String :=
  String.join (s.data.map jsonEscapeChar)

/-- Quoted JSON string. -/
def qstr (s : String) : String := "\"" ++ jsonEscape s ++ "\""

/-- Serializes one rule. Modelled from the spec: `json.MarshalIndent` is Go
library code abstracted here as a deterministic serializer that preserves the
field names and their order; no claim inspects the concrete syntax. -/
def ruleToJSON (r : Rule) : String :=
  "\x7b" ++ qstr "Item" ++ ":" ++ qstr r.Item ++ "," ++
    qstr "Severity" ++ ":" ++ qstr r.Severity ++ "," ++
    qstr "Summary" ++ ":" ++ qstr r.Summary ++ "," ++
    qstr "Content" ++ ":" ++ qstr r.Content ++ "," ++
    qstr "Case" ++ ":" ++ qstr r.Case ++ "," ++
    qstr "Position" ++ ":" ++ toString r.Position ++ "\x7d"

/-- Serializes a string array. -/
def strArrToJSON (l : List String) : String :=
  "[" ++ joinSep "," (l.map qstr) ++ "]"

/-- Serializes a rule array. -/
def ruleArrToJSON (l : List Rule) : String :=
  "[" ++ joinSep "," (l.map ruleToJSON) ++ "]"

/-- Deterministic serialization of the `JSONSuggest` document (stands for
`json.MarshalIndent` in `formatJSON`). -/
def marshalJSONSuggest (j : JSONSuggest) : String :=
  "\x7b" ++ qstr "ID" ++ ":" ++ qstr j.ID ++ "," ++
    qstr "Fingerprint" ++ ":" ++ qstr j.Fingerprint ++ "," ++
    qstr "Score" ++ ":" ++ toString j.Score ++ "," ++
    qstr "Sample" ++ ":" ++ qstr j.Sample ++ "," ++
    qstr "Explain" ++ ":" ++ ruleArrToJSON j.Explain ++ "," ++
    qstr "HeuristicRules" ++ ":" ++ ruleArrToJSON j.HeuristicRules ++ "," ++
    qstr "IndexRules" ++ ":" ++ ruleArrToJSON j.IndexRules ++ "," ++
    qstr "Tables" ++ ":" ++ strArrToJSON j.Tables ++ "\x7d"

/-! ## The markdown-family branch of FormatSuggest (lines 1320-1467)

Within this branch every `for item := range suggest` loop either collects
keys and sorts them with `sort.Strings` before any output, or deletes
entries based on a per-entry condition; in both cases the observable result
is independent of the iteration order, so the denotation below uses sorted
key lists and filters (Go guarantees that an entry deleted during a range
loop is not produced later in that loop). -/

/-- One rendered item of the Index block (lines 1420-1438), threading the
buffer and the running score; on an `Atoi` failure the running score is set
to `0` (lines 1427-1430). -/
def idxStep (ext : Externals) (format : String) (m : GoMap)
    (acc : List String × Int) (k : String) : List String × Int :=
  let r := (mapLookup m k).getD zeroRule
  let res := sevDigitsMD r.Severity
  let sc := if res.2 then acc.2 - res.1 * 5 else 0
  let caseLines :=
    if format == "duplicate-key-checker" then
      ["* **原建表语句:** \n```sql\n" ++ r.Case ++ "\n```\n", "\n\n"]
    else
      ["* **Case:** " ++ ext.markdownEscape r.Case ++ "\n\n"]
  (acc.1 ++
    [sprintln2 "## " (ext.markdownEscape r.Summary),
     sprintln2 "* **Item:** " k,
     sprintln2 "* **Severity:** " r.Severity,
     sprintln2 "* **Content:** " (ext.markdownEscape r.Content)] ++ caseLines,
   sc)

/-- One rendered item of the Heuristic block (lines 1451-1467): the `OK`
item contributes only its summary line and is not scored. -/
def heurStep (ext : Externals) (m : GoMap)
    (acc : List String × Int) (k : String) : List String × Int :=
  let r := (mapLookup m k).getD zeroRule
  if k == "OK" then (acc.1 ++ [sprintln2 "##" r.Summary], acc.2)
  else
    let res := sevDigitsMD r.Severity
    let sc := if res.2 then acc.2 - res.1 * 5 else 0
    (acc.1 ++
      [sprintln2 "##" r.Summary,
       sprintln2 "* **Item:** " k,
       sprintln2 "* **Severity:** " r.Severity,
       sprintln2 "* **Content:** " (ext.markdownEscape r.Content)],
     sc)

/-- The `markdown` / `html` / `explain-digest` / `duplicate-key-checker`
branch (lines 1320-1467): returns the finding set after the branch's
deletions, the output buffer, and the score. -/
def mdBranch (ext : Externals) (cfg : Config) (sql id fingerprint format : String)
    (suggest : GoMap) : GoMap × List String × Int :=
  let header : List String :=
    if sql != "" && suggest.length > 0 then
      if cfg.ExplainSQLReportType == "fingerprint" then
        ["# Query: " ++ id ++ "\n", "```sql\n" ++ fingerprint ++ "\n```\n"]
      else if cfg.ExplainSQLReportType == "sample" then
        ["# Query: " ++ id ++ "\n", "```sql\n" ++ sql ++ "\n```\n"]
      else
        ["# Query: " ++ id ++ "\n", "```sql\n" ++ ext.pretty sql format ++ "\n```\n"]
    else []
  -- MySQL execute failed block (lines 1336-1354): ERR entries with empty
  -- content are deleted while collecting; rendered ERR entries are deleted
  -- after rendering and force the score to 0.
  let errKeys := sortStrings ((mapKeys suggest).filter (fun k => isErrContent suggest k))
  let mysqlHeader := if errKeys.length > 0 then ["## MySQL execute failed\n"] else []
  let mysqlLines := errKeys.map (fun k =>
    sprintln1 (((mapLookup suggest k).getD zeroRule).Content))
  let score1 : Int := if errKeys.length > 0 then 0 else 100
  let s1 := suggest.filter (fun kv => !(goHasPrefix kv.1 "ERR"))
  -- Explain block (lines 1357-1375): EXP.000 first, then the others sorted.
  let exp0 := (mapLookup s1 "EXP.000").getD zeroRule
  let exp0Block :=
    if exp0.Item != "" then
      [sprintln2 "## " exp0.Summary, sprintln1 exp0.Content, exp0.Case ++ "\n"]
    else []
  let s2 := if exp0.Item != "" then mapErase s1 "EXP.000" else s1
  let expKeys := sortStrings ((mapKeys s2).filter (fun k => goHasPrefix k "EXP"))
  let expLines := expKeys.flatMap (fun k =>
    let r := (mapLookup s2 k).getD zeroRule
    [sprintln2 "### " r.Summary, sprintln1 r.Content, r.Case ++ "\n"])
  -- Profiling block (lines 1378-1392): rendered entries are deleted.
  let proKeys := sortStrings ((mapKeys s2).filter (fun k => goHasPrefix k "PRO"))
  let proHeader := if proKeys.length > 0 then ["## Profiling信息\n"] else []
  let proLines := proKeys.map (fun k =>
    sprintln1 (((mapLookup s2 k).getD zeroRule).Content))
  let s3 := s2.filter (fun kv => !(goHasPrefix kv.1 "PRO"))
  -- Trace block (lines 1395-1409): rendered entries are deleted.
  let traKeys := sortStrings ((mapKeys s3).filter (fun k => goHasPrefix k "TRA"))
  let traHeader := if traKeys.length > 0 then ["## Trace信息\n"] else []
  let traLines := traKeys.map (fun k =>
    sprintln1 (((mapLookup s3 k).getD zeroRule).Content))
  let s4 := s3.filter (fun kv => !(goHasPrefix kv.1 "TRA"))
  -- Index block (lines 1412-1438).
  let idxKeys := sortStrings ((mapKeys s4).filter (fun k => goHasPrefix k "IDX"))
  let idxOut := idxKeys.foldl (idxStep ext format s4) ([], score1)
  -- Heuristic block (lines 1441-1467).
  let heurKeys := sortStrings ((mapKeys s4).filter (fun k =>
    !goHasPrefix k "EXP" && !goHasPrefix k "IDX" && !goHasPrefix k "PRO"))
  let heurOut := heurKeys.foldl (heurStep ext s4) ([], idxOut.2)
  (s4,
   header ++ mysqlHeader ++ mysqlLines ++ exp0Block ++ expLines ++
     proHeader ++ proLines ++ traHeader ++ traLines ++ idxOut.1 ++ heurOut.1,
   heurOut.2)

/-- The finding set that the markdown-family branch leaves behind: all
`ERR.*` entries are deleted (empty-content ones at lines 1339-1340, rendered
ones at line 1353), `EXP.000` is deleted when present with a non-empty
`Item` (line 1362), and all `PRO.*` (line 1391) and `TRA.*` (line 1408)
entries are deleted. -/
def mdResultMap (suggest : GoMap) : GoMap :=
  let s1 := suggest.filter (fun kv => !(goHasPrefix kv.1 "ERR"))
  let s2 :=
    if ((mapLookup s1 "EXP.000").getD zeroRule).Item != "" then
      mapErase s1 "EXP.000"
    else s1
  (s2.filter (fun kv => !(goHasPrefix kv.1 "PRO"))).filter
    (fun kv => !(goHasPrefix kv.1 "TRA"))

/-! ## FormatSuggest (lines 1251-1489) -/

/-- The four format names handled by the markdown-family case of the switch
(line 1320). -/
def isMDFamily (format : String) : Bool :=
  format == "markdown" || format == "html" || format == "explain-digest"
    || format == "duplicate-key-checker"

/-- Final string assembly (lines 1477-1486): when the configured
`ReportType` (not the `format` argument) is `markdown` or `html` and the
buffer has more than one element, the score line is inserted after the
header; otherwise the string is left empty in that case; for all other
report types the buffer is joined with newlines. -/
def assemble (ext : Externals) (cfg : Config) (score : Int)
    (buf : List String) : String :=
  if cfg.ReportType == "markdown" || cfg.ReportType == "html" then
    match buf with
    | b0 :: b1 :: rest =>
      b0 ++ "\n" ++ ext.scoreStr score ++ "\n\n" ++ joinSep "\n" (b1 :: rest)
    | _ => ""
  else joinSep "\n" buf

/-- Embedding of `advisor.FormatSuggest`.  `ord` models the randomized
iteration order Go uses for the `for ... range suggest` loops of the `text`,
`lint` and default branches and of the `formatJSON` score loop: a run of the
Go program corresponds to instantiating `ord` with some permutation of
`mapKeys (mergedFindings cfg pairs suggests)`.  Branches that sort their
keys before rendering do not consult `ord`. -/
def FormatSuggest (ext : Externals) (cfg : Config)
    (pairs : List (String × String)) (sql currentDB format : String)
    (suggests : List GoMap) (ord : List String) : GoMap × String :=
  let fingerprint := if sql != "" then ext.fingerprint sql else ""
  let id := if sql != "" then ext.idOf (ext.fingerprint sql) else ""
  let suggest := mergedFindings cfg pairs suggests
  if format == "json" then
    (suggest,
     assemble ext cfg 100
       [marshalJSONSuggest (formatJSONStruct ext sql currentDB suggest ord)])
  else if format == "text" then
    let buf := ord.flatMap (fun k =>
      let r := (mapLookup suggest k).getD zeroRule
      [sprintln2 "Query: " sql, sprintln2 "ID: " id, sprintln2 "Item: " k,
       sprintln2 "Severity: " r.Severity, sprintln2 "Summary: " r.Summary,
       sprintln2 "Content: " r.Content])
    (suggest, assemble ext cfg 100 buf)
  else if format == "lint" then
    let buf := ord.filterMap (fun k =>
      let r := (mapLookup suggest k).getD zeroRule
      if k != "OK" && !goHasPrefix k "EXP" then some (k ++ " " ++ r.Summary)
      else none)
    (suggest, assemble ext cfg 100 buf)
  else if isMDFamily format then
    let r := mdBranch ext cfg sql id fingerprint format suggest
    (r.1, assemble ext cfg r.2.2 r.2.1)
  else
    let buf := sprintln2 "Query: " sql ::
      ord.map (fun k => ext.prettySprint ((mapLookup suggest k).getD zeroRule))
    (suggest, assemble ext cfg 100 buf)

/-! ## The heuristic rule catalog (`InitHeuristicRules`, lines 118-1211)

The catalog is embedded by its map key and the `Item` and `Severity` fields
of each entry — the fields the catalog invariants speak about; the free-text
`Summary`/`Content`/`Case` fields and the check function are not referenced
by any claim. -/

/-- Whether a code is the sentinel `OK` or matches `[A-Z]{3}\.[0-9]{3}$`
anchored on both sides (the regex `^(OK|[A-Z]{3}\.\d{3})$`). -/
def codeOKB (k : String) : Bool :=
  k == "OK" ||
    (match k.data with
     | [a, b, c, d, e, f, g] =>
       (65 ≤ a.toNat ∧ a.toNat ≤ 90) && (65 ≤ b.toNat ∧ b.toNat ≤ 90) &&
         (65 ≤ c.toNat ∧ c.toNat ≤ 90) && d == '.' &&
         (48 ≤ e.toNat ∧ e.toNat ≤ 57) && (48 ≤ f.toNat ∧ f.toNat ≤ 57) &&
         (48 ≤ g.toNat ∧ g.toNat ≤ 57)
     | _ => false)

/-- Whether a severity string matches the regex `^L[0-9]$`. -/
def sevOKB (s : String) : Bool :=
  match s.data with
  | [l, c] => l == 'L' && (48 ≤ c.toNat ∧ c.toNat ≤ 57)
  | _ => false

/-- Whether a code begins with one of the externally-produced category
markers `ERR`, `EXP`, `PRO`, `TRA`, `IDX`. -/
def externalCodeB (k : String) : Bool :=
  goHasPrefix k "ERR" || goHasPrefix k "EXP" || goHasPrefix k "PRO" ||
    goHasPrefix k "TRA" || goHasPrefix k "IDX"

/-- Every entry of the `HeuristicRules` map built by `InitHeuristicRules`,
projected to (map key, `Item`, `Severity`), in source order. -/
def heuristicRuleMeta : List (String × String × String) := [
  ("OK", "OK", "L0"),
  ("ALI.001", "ALI.001", "L0"),
  ("ALI.002", "ALI.002", "L8"),
  ("ALI.003", "ALI.003", "L1"),
  ("ALT.001", "ALT.001", "L4"),
  ("ALT.002", "ALT.002", "L2"),
  ("ALT.003", "ALT.003", "L0"),
  ("ALT.004", "ALT.004", "L0"),
  ("ARG.001", "ARG.001", "L4"),
  ("ARG.002", "ARG.002", "L1"),
  ("ARG.003", "ARG.003", "L4"),
  ("ARG.004", "ARG.004", "L4"),
  ("ARG.005", "ARG.005", "L1"),
  ("ARG.006", "ARG.006", "L1"),
  ("ARG.007", "ARG.007", "L3"),
  ("ARG.008", "ARG.008", "L1"),
  ("ARG.009", "ARG.009", "L1"),
  ("ARG.010", "ARG.010", "L1"),
  ("ARG.011", "ARG.011", "L3"),
  ("ARG.012", "ARG.012", "L2"),
  ("ARG.013", "ARG.013", "L0"),
  ("ARG.014", "ARG.014", "L4"),
  ("CLA.001", "CLA.001", "L4"),
  ("CLA.002", "CLA.002", "L3"),
  ("CLA.003", "CLA.003", "L2"),
  ("CLA.004", "CLA.004", "L2"),
  ("CLA.005", "CLA.005", "L2"),
  ("CLA.006", "CLA.006", "L4"),
  ("CLA.008", "CLA.008", "L2"),
  ("CLA.009", "CLA.009", "L2"),
  ("CLA.010", "CLA.010", "L2"),
  ("CLA.011", "CLA.011", "L1"),
  ("CLA.012", "CLA.012", "L2"),
  ("CLA.013", "CLA.013", "L3"),
  ("CLA.014", "CLA.014", "L2"),
  ("CLA.015", "CLA.015", "L4"),
  ("CLA.016", "CLA.016", "L2"),
  ("COL.001", "COL.001", "L1"),
  ("COL.002", "COL.002", "L2"),
  ("COL.003", "COL.003", "L2"),
  ("COL.004", "COL.004", "L1"),
  ("COL.005", "COL.005", "L1"),
  ("COL.006", "COL.006", "L3"),
  ("COL.007", "COL.007", "L3"),
  ("COL.008", "COL.008", "L1"),
  ("COL.009", "COL.009", "L2"),
  ("COL.010", "COL.010", "L2"),
  ("COL.011", "COL.011", "L0"),
  ("COL.012", "COL.012", "L5"),
  ("COL.013", "COL.013", "L4"),
  ("COL.014", "COL.014", "L5"),
  ("COL.015", "COL.015", "L4"),
  ("COL.016", "COL.016", "L1"),
  ("COL.017", "COL.017", "L2"),
  ("COL.018", "COL.018", "L9"),
  ("COL.019", "COL.019", "L1"),
  ("DIS.001", "DIS.001", "L1"),
  ("DIS.002", "DIS.002", "L3"),
  ("DIS.003", "DIS.003", "L3"),
  ("FUN.001", "FUN.001", "L2"),
  ("FUN.002", "FUN.002", "L1"),
  ("FUN.003", "FUN.003", "L3"),
  ("FUN.004", "FUN.004", "L4"),
  ("FUN.005", "FUN.005", "L1"),
  ("FUN.006", "FUN.006", "L1"),
  ("FUN.007", "FUN.007", "L1"),
  ("FUN.008", "FUN.008", "L1"),
  ("FUN.009", "FUN.009", "L1"),
  ("GRP.001", "GRP.001", "L2"),
  ("JOI.001", "JOI.001", "L2"),
  ("JOI.002", "JOI.002", "L4"),
  ("JOI.003", "JOI.003", "L4"),
  ("JOI.004", "JOI.004", "L4"),
  ("JOI.005", "JOI.005", "L2"),
  ("JOI.006", "JOI.006", "L4"),
  ("JOI.007", "JOI.007", "L4"),
  ("JOI.008", "JOI.008", "L4"),
  ("KEY.001", "KEY.001", "L2"),
  ("KEY.002", "KEY.002", "L4"),
  ("KEY.003", "KEY.003", "L4"),
  ("KEY.004", "KEY.004", "L0"),
  ("KEY.005", "KEY.005", "L2"),
  ("KEY.006", "KEY.006", "L4"),
  ("KEY.007", "KEY.007", "L4"),
  ("KEY.008", "KEY.008", "L4"),
  ("KEY.009", "KEY.009", "L0"),
  ("KEY.010", "KEY.010", "L0"),
  ("KWR.001", "KWR.001", "L2"),
  ("KWR.002", "KWR.002", "L2"),
  ("KWR.003", "KWR.003", "L1"),
  ("KWR.004", "KWR.004", "L1"),
  ("KWR.005", "KWR.005", "L1"),
  ("LCK.001", "LCK.001", "L3"),
  ("LCK.002", "LCK.002", "L3"),
  ("LIT.001", "LIT.001", "L2"),
  ("LIT.002", "LIT.002", "L4"),
  ("LIT.003", "LIT.003", "L3"),
  ("LIT.004", "LIT.004", "L1"),
  ("RES.001", "RES.001", "L4"),
  ("RES.002", "RES.002", "L4"),
  ("RES.003", "RES.003", "L4"),
  ("RES.004", "RES.004", "L4"),
  ("RES.005", "RES.005", "L4"),
  ("RES.006", "RES.006", "L4"),
  ("RES.007", "RES.007", "L4"),
  ("RES.008", "RES.008", "L2"),
  ("RES.009", "RES.009", "L2"),
  ("RES.010", "RES.010", "L2"),
  ("RES.011", "RES.011", "L2"),
  ("SEC.001", "SEC.001", "L0"),
  ("SEC.002", "SEC.002", "L0"),
  ("SEC.003", "SEC.003", "L0"),
  ("SEC.004", "SEC.004", "L0"),
  ("STA.001", "STA.001", "L0"),
  ("STA.002", "STA.002", "L1"),
  ("STA.003", "STA.003", "L1"),
  ("STA.004", "STA.004", "L1"),
  ("SUB.001", "SUB.001", "L4"),
  ("SUB.002", "SUB.002", "L2"),
  ("SUB.003", "SUB.003", "L3"),
  ("SUB.004", "SUB.004", "L3"),
  ("SUB.005", "SUB.005", "L8"),
  ("SUB.006", "SUB.006", "L2"),
  ("SUB.007", "SUB.007", "L2"),
  ("TBL.001", "TBL.001", "L4"),
  ("TBL.002", "TBL.002", "L4"),
  ("TBL.003", "TBL.003", "L8"),
  ("TBL.004", "TBL.004", "L2"),
  ("TBL.005", "TBL.005", "L4"),
  ("TBL.006", "TBL.006", "L1"),
  ("TBL.007", "TBL.007", "L1"),
  ("TBL.008", "TBL.008", "L4")]

/-! ## Concrete instances used by counterexamples and witnesses -/

/-- A concrete instantiation of the external collaborators, used to
evaluate the pipeline at concrete inputs. -/
def extCE : Externals :=
  { fingerprint := fun s => s
    idOf := fun s => s
    pretty := fun s _ => s
    schemaMetaInfo := fun _ _ => []
    markdownEscape := fun s => s
    scoreStr := fun n => toString n
    prettySprint := fun r => r.Item }

/-- A heuristic finding used by concrete instances. -/
def rCLA : Rule := ⟨"CLA.001", "L4", "sumA", "contA", "caseA", 0⟩

/-- A second heuristic finding used by concrete instances. -/
def rCOL : Rule := ⟨"COL.001", "L1", "sumB", "contB", "caseB", 0⟩

/-- A finding whose severity string `"L-1"` parses to the negative integer
`-1` (externally merged finding sets are not restricted to `L[0-9]`). -/
def rSevNeg : Rule := ⟨"CLA.001", "L-1", "s", "c", "e", 0⟩

/-- A finding whose severity string `"LX"` fails integer parsing. -/
def rSevBad : Rule := ⟨"CLA.001", "LX", "s", "c", "e", 0⟩

/-- An `ERR.*` placeholder finding: empty `Content`, severity `L8`. -/
def rErrEmpty : Rule := ⟨"ERR.001", "L8", "s", "", "e", 0⟩

/-- Regexp library behaviour as documented for Go's `regexp` package on the
pattern `"(?i)"` (the empty case-insensitive regex): compilation succeeds,
the regex matches every input, and `FindString` returns `""` because the
leftmost match is the empty string. -/
def reFindEmptyPat : String → String → Option String := fun _ _ => some ""

/-- Matching predicate for the same library behaviour: the empty pattern
matches every input (used for the claim's reading "matches sql as a
case-insensitive regular expression"). -/
def matchCIEmptyPat : String → String → Bool := fun _ _ => true

/-! ## Helper lemmas on the map operations -/

theorem mapLookup_filter_none {m : GoMap} {p : String × Rule → Bool} {k : String}
    (h : mapLookup m k = none) : mapLookup (m.filter p) k = none := by
  unfold mapLookup at *
  rcases hf : (m.filter p).find? (fun kv => kv.1 == k) with _ | kv
  · rw [hf]; rfl
  · exfalso
    have hmem := List.mem_of_find?_eq_some hf
    have hkv := List.find?_some hf
    have hmem' : kv ∈ m := (List.mem_filter.mp hmem).1
    have hnone : m.find? (fun kv => kv.1 == k) = none := by
      cases hx : m.find? (fun kv => kv.1 == k) with
      | none => rfl
      | some a => rw [hx] at h; simp at h
    have := List.find?_eq_none.mp hnone kv hmem'
    simp_all

theorem mapLookup_erase_self (m : GoMap) (k : String) :
    mapLookup (mapErase m k) k = none := by
  unfold mapLookup mapErase
  rcases hf : (m.filter fun kv => kv.1 ≠ k).find? (fun kv => kv.1 == k) with _ | kv
  · rw [hf]; rfl
  · exfalso
    have hmem := List.mem_of_find?_eq_some hf
    have hkv := List.find?_some hf
    have := (List.mem_filter.mp hmem).2
    simp_all

theorem mapLookup_filter_prop {m : GoMap} {p : String × Rule → Bool} {k : String}
    {r : Rule} (h : mapLookup (m.filter p) k = some r) : p (k, r) = true := by
  unfold mapLookup at h
  rcases hf : (m.filter p).find? (fun kv => kv.1 == k) with _ | kv
  · rw [hf] at h; simp at h
  · rw [hf] at h
    have hkv := List.find?_some hf
    have hmem := List.mem_of_find?_eq_some hf
    have hp := (List.mem_filter.mp hmem).2
    simp only [Option.map_some'] at h
    have hk : kv.1 = k := by simpa using hkv
    have hr : kv.2 = r := by simpa using h
    rw [← hk, ← hr]
    exact hp

/-! ## Claim C4: prefix semantics of IsIgnoreRule -/

theorem isIgnoreRuleLoop_eq_any (rules : List String) (item : String) :
    isIgnoreRuleLoop rules item =
      rules.any (fun ir0 => goHasPrefix item (goTrimChar '*' ir0) &&
        goTrimChar '*' ir0 != "OK" && goTrimChar '*' ir0 != "") := by
  induction rules with
  | nil => rfl
  | cons ir0 rest ih =>
    simp only [isIgnoreRuleLoop, List.any_cons, ih]
    cases h : (goHasPrefix item (goTrimChar '*' ir0) && goTrimChar '*' ir0 != "OK"
        && goTrimChar '*' ir0 != "") <;> simp [h]

/-- C4 counterexample: the claim says only the TRAILING `*` of a pattern is
stripped, but `strings.Trim(ir, "*")` strips leading asterisks too, so the
pattern `"*ALI"` does ignore `ALI.001` although the claim says it cannot. -/
theorem c4_counterexample :
    IsIgnoreRule ⟨["*ALI"], "", ""⟩ "ALI.001" = true ∧
      isIgnoreRuleSpec ⟨["*ALI"], "", ""⟩ "ALI.001" = false := by decide

/-- C4 (amended): `IsIgnoreRule(code)` returns true iff some configured
pattern, after ALL leading and trailing `*` characters are stripped
(`strings.Trim`), is a non-empty prefix of the code and is not the literal
`OK`. -/
theorem c4_amended (cfg : Config) (item : String) :
    IsIgnoreRule cfg item = true ↔
      ∃ ir ∈ cfg.IgnoreRules, goHasPrefix item (goTrimChar '*' ir) = true ∧
        goTrimChar '*' ir ≠ "OK" ∧ goTrimChar '*' ir ≠ "" := by
  rw [IsIgnoreRule, isIgnoreRuleLoop_eq_any, List.any_eq_true]
  simp only [Bool.and_eq_true, bne_iff_ne, and_assoc]

/-- C4 amended, instantiated: the pattern `COL.*` ignores `COL.001`. -/
theorem c4_amended_witness :
    IsIgnoreRule ⟨["COL.*"], "", ""⟩ "COL.001" = true := by
  exact (c4_amended ⟨["COL.*"], "", ""⟩ "COL.001").mpr
    ⟨"COL.*", by simp, by decide, by decide, by decide⟩

/-! ## Claim C5: blacklist semantics -/

theorem inBlackListLoop_eq_any (reFind : String → String → Option String)
    (bl : List String) (sql : String) :
    inBlackListLoop reFind bl sql =
      bl.any (fun r => sql == r ||
        (match reFind ("(?i)" ++ r) sql with
         | some out => out != ""
         | none => false)) := by
  induction bl with
  | nil => rfl
  | cons r0 rest ih =>
    simp only [inBlackListLoop, List.any_cons, ih]
    cases h1 : sql == r0
    · rcases h2 : reFind ("(?i)" ++ r0) sql with _ | out
      · simp [h1, h2]
      · cases h3 : out != "" <;> simp [h1, h2, h3]
    · simp [h1]

theorem regexHit_iff (reFind : String → String → Option String) (r sql : String) :
    (match reFind ("(?i)" ++ r) sql with
     | some out => out != ""
     | none => false) = true ↔
      ∃ out, reFind ("(?i)" ++ r) sql = some out ∧ out ≠ "" := by
  rcases h : reFind ("(?i)" ++ r) sql with _ | out <;> simp [h]

/-- C5 counterexample: with the blacklist entry `""` and the SQL `"a"`, the
entry matches the SQL as a case-insensitive regex (an empty regex matches
everything), so the claim says `InBlackList` must return true; the code
returns false because `FindString` yields the empty string for an empty
leftmost match. -/
theorem c5_counterexample :
    InBlackList reFindEmptyPat [""] "a" = false ∧
      inBlackListSpec matchCIEmptyPat [""] "a" = true := by decide

/-- C5 (amended): `InBlackList(sql)` returns true iff some blacklist entry
equals `sql` literally, or compiles as a case-insensitive regex whose
leftmost match found in `sql` is non-empty; entries that fail to compile, or
whose only match is the empty string, do not trigger the regex path. -/
theorem c5_amended (reFind : String → String → Option String)
    (bl : List String) (sql : String) :
    InBlackList reFind bl sql = true ↔
      ∃ r ∈ bl, sql = r ∨
        ∃ out, reFind ("(?i)" ++ r) sql = some out ∧ out ≠ "" := by
  rw [InBlackList, inBlackListLoop_eq_any, List.any_eq_true]
  constructor
  · rintro ⟨r, hmem, hp⟩
    rcases Bool.or_eq_true _ _ |>.mp hp with he | hm
    · exact ⟨r, hmem, Or.inl (by simpa using he)⟩
    · exact ⟨r, hmem, Or.inr ((regexHit_iff reFind r sql).mp hm)⟩
  · rintro ⟨r, hmem, he | hm⟩
    · exact ⟨r, hmem, Bool.or_eq_true _ _ |>.mpr (Or.inl (by simpa using he))⟩
    · exact ⟨r, hmem, Bool.or_eq_true _ _ |>.mpr
        (Or.inr ((regexHit_iff reFind r sql).mpr hm))⟩

/-- C5 amended, instantiated: a literally-equal entry blacklists the SQL. -/
theorem c5_amended_witness :
    InBlackList reFindEmptyPat ["drop table t"] "drop table t" = true := by
  exact (c5_amended reFindEmptyPat ["drop table t"] "drop table t").mpr
    ⟨"drop table t", by simp, Or.inl rfl⟩

/-! ## Claim C9: catalog invariants -/

set_option maxRecDepth 40000 in
/-- C9: after `InitHeuristicRules`, every key of the heuristic rule catalog
is unique, matches `^(OK|[A-Z]{3}\.\d{3})$`, and equals its rule's `Item`
field; every `Severity` matches `^L[0-9]$`; the `OK` sentinel entry is
present; and no key begins with `ERR`, `EXP`, `PRO`, `TRA` or `IDX`. -/
theorem c9_catalog_invariants :
    (heuristicRuleMeta.map Prod.fst).Nodup ∧
    (∀ t ∈ heuristicRuleMeta,
      t.1 = t.2.1 ∧ codeOKB t.1 = true ∧ sevOKB t.2.2 = true ∧
        externalCodeB t.1 = false) ∧
    ("OK", "OK", "L0") ∈ heuristicRuleMeta := by decide

/-! ## Structure of the FormatSuggest result map -/

theorem mapLookup_some_mem {m : GoMap} {k : String} {r : Rule}
    (h : mapLookup m k = some r) : (k, r) ∈ m := by
  unfold mapLookup at h
  rcases hf : m.find? (fun kv => kv.1 == k) with _ | kv
  · rw [hf] at h; simp at h
  · rw [hf] at h
    have hkv := List.find?_some hf
    have hmem := List.mem_of_find?_eq_some hf
    have hk : kv.1 = k := by simpa using hkv
    have hr : kv.2 = r := by simpa using h
    rw [← hk, ← hr]
    exact hmem

theorem mdBranch_fst (ext : Externals) (cfg : Config)
    (sql id fingerprint format : String) (suggest : GoMap) :
    (mdBranch ext cfg sql id fingerprint format suggest).1 =
      mdResultMap suggest := rfl

theorem FormatSuggest_fst (ext : Externals) (cfg : Config)
    (pairs : List (String × String)) (sql db format : String)
    (suggests : List GoMap) (ord : List String) :
    (FormatSuggest ext cfg pairs sql db format suggests ord).1 =
      if isMDFamily format then
        mdResultMap (mergedFindings cfg pairs suggests)
      else mergedFindings cfg pairs suggests := by
  by_cases h1 : format = "json"
  · subst h1; rfl
  by_cases h2 : format = "text"
  · subst h2; rfl
  by_cases h3 : format = "lint"
  · subst h3; rfl
  by_cases h4 : isMDFamily format = true
  · unfold FormatSuggest
    have e1 : (format == "json") = false := by simp [h1]
    have e2 : (format == "text") = false := by simp [h2]
    have e3 : (format == "lint") = false := by simp [h3]
    simp only [e1, e2, e3, h4, Bool.false_eq_true, if_false, if_true,
      mdBranch_fst]
  · unfold FormatSuggest
    have e1 : (format == "json") = false := by simp [h1]
    have e2 : (format == "text") = false := by simp [h2]
    have e3 : (format == "lint") = false := by simp [h3]
    have e4 : isMDFamily format = false := by
      cases hx : isMDFamily format
      · rfl
      · exact absurd hx h4
    simp only [e1, e2, e3, e4, Bool.false_eq_true, if_false]

theorem okAdjust_two (ig : Bool) (a b : String × Rule) (t : List (String × Rule)) :
    okAdjust ig (a :: b :: t) = mapErase (a :: b :: t) "OK" := by
  simp only [okAdjust]
  have h1 : ¬((a :: b :: t : GoMap).length < 1) := by simp
  rw [if_neg h1]
  have h2 : (ig || decide ((a :: b :: t : GoMap).length > 1)) = true := by simp
  rw [if_pos h2]

theorem okAdjust_shape (ig : Bool) (s0 : GoMap) :
    (∃ r, okAdjust ig s0 = [("OK", r)]) ∨
      mapLookup (okAdjust ig s0) "OK" = none := by
  rcases s0 with _ | ⟨⟨k0, r0⟩, rest⟩
  · cases ig
    · exact Or.inl ⟨ruleOK, rfl⟩
    · right
      have he : okAdjust true ([] : GoMap) = mapErase [("OK", ruleOK)] "OK" := rfl
      rw [he]
      exact mapLookup_erase_self _ "OK"
  · rcases rest with _ | ⟨y, t⟩
    · cases ig
      · by_cases hk : k0 = "OK"
        · subst hk
          exact Or.inl ⟨r0, rfl⟩
        · right
          have he : okAdjust false [(k0, r0)] = [(k0, r0)] := rfl
          rw [he]
          unfold mapLookup
          have hbeq : (k0 == "OK") = false := by simpa using hk
          simp [List.find?, hbeq]
      · right
        have he : okAdjust true [(k0, r0)] = mapErase [(k0, r0)] "OK" := rfl
        rw [he]
        exact mapLookup_erase_self _ "OK"
    · right
      rw [okAdjust_two]
      exact mapLookup_erase_self _ "OK"

theorem mergedFindings_shape (cfg : Config) (pairs : List (String × String))
    (suggests : List GoMap) :
    (∃ r, mergedFindings cfg pairs suggests = [("OK", r)]) ∨
      mapLookup (mergedFindings cfg pairs suggests) "OK" = none := by
  unfold mergedFindings
  rcases okAdjust_shape (cfg.IgnoreRules.any fun r => r == "OK")
      (MergeConflictHeuristicRules pairs (mergeSuggests suggests)) with
    ⟨r, hr⟩ | hnone
  · rw [hr]
    by_cases hp : IsIgnoreRule cfg "OK" = true
    · right
      have : List.filter (fun kv => !(IsIgnoreRule cfg kv.1)) [(("OK" : String), r)] = [] := by
        simp [List.filter, hp]
      rw [this]
      rfl
    · left
      refine ⟨r, ?_⟩
      have hp' : IsIgnoreRule cfg "OK" = false := by
        cases hx : IsIgnoreRule cfg "OK"
        · rfl
        · exact absurd hx hp
      simp [List.filter, hp']
  · right
    exact mapLookup_filter_none hnone

theorem mdResultMap_singleton_OK (r : Rule) :
    mdResultMap [(("OK" : String), r)] = [(("OK" : String), r)] := rfl

theorem mdResultMap_lookup_none {suggest : GoMap} {k : String}
    (h : mapLookup suggest k = none) :
    mapLookup (mdResultMap suggest) k = none := by
  unfold mdResultMap
  have h1 : mapLookup (suggest.filter (fun kv => !(goHasPrefix kv.1 "ERR"))) k = none :=
    mapLookup_filter_none h
  apply mapLookup_filter_none
  apply mapLookup_filter_none
  by_cases hc :
      (((mapLookup (suggest.filter fun kv => !(goHasPrefix kv.1 "ERR")) "EXP.000").getD
        zeroRule).Item != "") = true
  · rw [if_pos hc]
    exact mapLookup_filter_none h1
  · rw [if_neg hc]
    exact h1

/-! ## Claim C1: the OK sentinel is exclusive -/

/-- C1: for every SQL string, report format, configuration, conflict
relation and collection of input finding sets, the finding set returned by
`FormatSuggest` either is exactly the singleton `OK` or does not contain the
`OK` sentinel. -/
theorem c1_ok_exclusive (ext : Externals) (cfg : Config)
    (pairs : List (String × String)) (sql db format : String)
    (suggests : List GoMap) (ord : List String) :
    mapKeys (FormatSuggest ext cfg pairs sql db format suggests ord).1 = ["OK"] ∨
      mapLookup (FormatSuggest ext cfg pairs sql db format suggests ord).1 "OK"
        = none := by
  rw [FormatSuggest_fst]
  rcases mergedFindings_shape cfg pairs suggests with ⟨r, hr⟩ | hnone
  · by_cases hmd : isMDFamily format = true
    · rw [if_pos hmd, hr, mdResultMap_singleton_OK]
      left; rfl
    · rw [if_neg hmd, hr]
      left; rfl
  · by_cases hmd : isMDFamily format = true
    · rw [if_pos hmd]
      right
      exact mdResultMap_lookup_none hnone
    · rw [if_neg hmd]
      right
      exact hnone

/-! ## Claim C3: the OK sentinel under an ignore list containing OK -/

theorem okAdjust_true_lookup_none (s0 : GoMap) :
    mapLookup (okAdjust true s0) "OK" = none := by
  rcases s0 with _ | ⟨⟨k0, r0⟩, rest⟩
  · have he : okAdjust true ([] : GoMap) = mapErase [("OK", ruleOK)] "OK" := rfl
    rw [he]
    exact mapLookup_erase_self _ "OK"
  · rcases rest with _ | ⟨y, t⟩
    · have he : okAdjust true [(k0, r0)] = mapErase [(k0, r0)] "OK" := rfl
      rw [he]
      exact mapLookup_erase_self _ "OK"
    · rw [okAdjust_two]
      exact mapLookup_erase_self _ "OK"

/-- C3 counterexample: with the configured ignore list `["OK"]` and no input
finding sets, the merged set momentarily is exactly `{OK}` — yet
`FormatSuggest` deletes the sentinel anyway (line 1290 deletes it whenever
`ignoreOK` is set, regardless of whether it is the only member), returning
the empty finding set instead of retaining `OK`. -/
theorem c3_counterexample :
    mergedFindings ⟨["OK"], "text", ""⟩ [] [] = [] ∧
      (FormatSuggest extCE ⟨["OK"], "text", ""⟩ [] "select 1" "" "text" [] []).1
        = [] := by decide

/-- C3 (amended): if the ignore list contains the bare token `OK`, the `OK`
sentinel is removed from the returned finding set unconditionally — even
when it is the sole member, leaving an empty set; a sole `OK` is retained
only when `OK` is not in the ignore list (and no ignore pattern strips it). -/
theorem c3_amended (ext : Externals) (cfg : Config)
    (pairs : List (String × String)) (sql db format : String)
    (suggests : List GoMap) (ord : List String) :
    ("OK" ∈ cfg.IgnoreRules →
      mapLookup (FormatSuggest ext cfg pairs sql db format suggests ord).1 "OK"
        = none) ∧
    ("OK" ∉ cfg.IgnoreRules →
      MergeConflictHeuristicRules pairs (mergeSuggests suggests) = [] →
      IsIgnoreRule cfg "OK" = false →
      (FormatSuggest ext cfg pairs sql db format suggests ord).1
        = [("OK", ruleOK)]) := by
  constructor
  · intro hmem
    rw [FormatSuggest_fst]
    have hig : (cfg.IgnoreRules.any fun r => r == "OK") = true :=
      List.any_eq_true.mpr ⟨"OK", hmem, by simp⟩
    have hnone : mapLookup (mergedFindings cfg pairs suggests) "OK" = none := by
      unfold mergedFindings
      rw [hig]
      exact mapLookup_filter_none (okAdjust_true_lookup_none _)
    by_cases hmd : isMDFamily format = true
    · rw [if_pos hmd]
      exact mdResultMap_lookup_none hnone
    · rw [if_neg hmd]
      exact hnone
  · intro hnotmem hempty hignok
    rw [FormatSuggest_fst]
    have hig : (cfg.IgnoreRules.any fun r => r == "OK") = false := by
      cases hx : cfg.IgnoreRules.any fun r => r == "OK"
      · rfl
      · exfalso
        rcases List.any_eq_true.mp hx with ⟨r, hr, hbeq⟩
        have : r = "OK" := by simpa using hbeq
        exact hnotmem (this ▸ hr)
    have hsingle : mergedFindings cfg pairs suggests = [("OK", ruleOK)] := by
      unfold mergedFindings
      rw [hig, hempty]
      have he : okAdjust false ([] : GoMap) = [("OK", ruleOK)] := rfl
      rw [he]
      simp [List.filter, hignok]
    by_cases hmd : isMDFamily format = true
    · rw [if_pos hmd, hsingle, mdResultMap_singleton_OK]
    · rw [if_neg hmd, hsingle]

/-- C3 amended, instantiated at concrete inputs: with `["OK"]` in the ignore
list the sentinel is gone, with an empty ignore list a sole `OK` survives. -/
theorem c3_amended_witness :
    mapLookup (FormatSuggest extCE ⟨["OK"], "text", ""⟩ [] "q" "" "text" [] []).1
        "OK" = none ∧
      (FormatSuggest extCE ⟨[], "text", ""⟩ [] "q" "" "text" [] []).1
        = [("OK", ruleOK)] :=
  ⟨(c3_amended extCE ⟨["OK"], "text", ""⟩ [] "q" "" "text" [] []).1
      (by simp),
   (c3_amended extCE ⟨[], "text", ""⟩ [] "q" "" "text" [] []).2
      (by simp) rfl (by decide)⟩

/-! ## Claim C10: codes deleted by the markdown-family branch -/

theorem mdResultMap_mem {suggest : GoMap} {k : String} {r : Rule}
    (h : (k, r) ∈ mdResultMap suggest) :
    goHasPrefix k "ERR" = false ∧ goHasPrefix k "PRO" = false ∧
      goHasPrefix k "TRA" = false := by
  unfold mdResultMap at h
  have h1 := List.mem_filter.mp h
  have h2 := List.mem_filter.mp h1.1
  have h3 : (k, r) ∈ suggest.filter (fun kv => !(goHasPrefix kv.1 "ERR")) := by
    rcases h2 with ⟨hin, _⟩
    by_cases hc :
        (((mapLookup (suggest.filter fun kv => !(goHasPrefix kv.1 "ERR"))
          "EXP.000").getD zeroRule).Item != "") = true
    · rw [if_pos hc] at hin
      exact (List.mem_filter.mp hin).1
    · rw [if_neg hc] at hin
      exact hin
  refine ⟨?_, ?_, ?_⟩
  · have := (List.mem_filter.mp h3).2
    simpa using this
  · have := h2.2
    simpa using this
  · have := h1.2
    simpa using this

/-- C10: in the markdown-family formats (`markdown`, `html`,
`explain-digest`, `duplicate-key-checker`), the finding set returned by
`FormatSuggest` never contains a `PRO.*` code, a `TRA.*` code, or an `ERR.*`
code with non-empty `Content`, whatever the input finding sets contained. -/
theorem c10_frame (ext : Externals) (cfg : Config)
    (pairs : List (String × String)) (sql db format : String)
    (suggests : List GoMap) (ord : List String)
    (hfmt : isMDFamily format = true) :
    ∀ k r,
      mapLookup (FormatSuggest ext cfg pairs sql db format suggests ord).1 k
        = some r →
      goHasPrefix k "PRO" = false ∧ goHasPrefix k "TRA" = false ∧
        ¬(goHasPrefix k "ERR" = true ∧ r.Content ≠ "") := by
  intro k r h
  rw [FormatSuggest_fst, if_pos hfmt] at h
  have hmem := mapLookup_some_mem h
  have hpre := mdResultMap_mem hmem
  refine ⟨hpre.2.1, hpre.2.2, ?_⟩
  rintro ⟨herr, _⟩
  rw [hpre.1] at herr
  exact Bool.noConfusion herr

/-- C10, instantiated: a heuristic finding survives the markdown branch and
indeed is not one of the deleted categories. -/
theorem c10_frame_witness :
    goHasPrefix "CLA.001" "PRO" = false ∧ goHasPrefix "CLA.001" "TRA" = false ∧
      ¬(goHasPrefix "CLA.001" "ERR" = true ∧ rCLA.Content ≠ "") :=
  c10_frame extCE ⟨[], "text", ""⟩ [] "q" "" "markdown" [[("CLA.001", rCLA)]] []
    (by decide) "CLA.001" rCLA (by decide)

/-! ## The formatJSON score: characterization under well-formed severities -/

theorem sevDigitsJSON_of_wf {s : String} (h : sevOKB s = true) :
    ∃ d : Nat, d ≤ 9 ∧ sevDigitsJSON s = ((d : Int), true) := by
  obtain ⟨data⟩ := s
  rcases data with _ | ⟨l, data⟩
  · simp [sevOKB] at h
  rcases data with _ | ⟨c, data⟩
  · simp [sevOKB] at h
  rcases data with _ | ⟨x, t⟩
  swap
  · simp [sevOKB] at h
  simp only [sevOKB, Bool.and_eq_true, beq_iff_eq, decide_eq_true_eq] at h
  obtain ⟨rfl, hc1, hc2⟩ := h
  refine ⟨c.toNat - 48, by omega, ?_⟩
  have hcL : c ≠ 'L' := by
    intro hc
    subst hc
    have : ('L' : Char).toNat = 76 := by decide
    omega
  have htrim : goTrimLeftChar 'L' ⟨['L', c]⟩ = ⟨[c]⟩ := by
    simp [goTrimLeftChar, dropLeadChar, hcL]
  have hcp : c ≠ '+' := by
    intro hc
    subst hc
    have : ('+' : Char).toNat = 43 := by decide
    omega
  have hcm : c ≠ '-' := by
    intro hc
    subst hc
    have : ('-' : Char).toNat = 45 := by decide
    omega
  have hAtoi : goAtoi ⟨[c]⟩ = goAtoiCore false [c] := by
    unfold goAtoi
    split
    · next rest heq =>
      exfalso
      injection heq with h1 _
      exact hcp h1
    · next rest heq =>
      exfalso
      injection heq with h1 _
      exact hcm h1
    · rfl
  unfold sevDigitsJSON
  rw [htrim, hAtoi]
  unfold goAtoiCore natFromDigits
  have hfd : natFromDigitsAux 0 [c] = some (c.toNat - 48) := by
    simp [natFromDigitsAux, hc1, hc2]
  simp only [hfd]
  have hle : c.toNat - 48 ≤ 9223372036854775807 := by omega
  simp [hle]

theorem lvalJSON_bounds {m : GoMap}
    (hwf : ∀ kv ∈ m, sevOKB kv.2.Severity = true) (k : String) :
    0 ≤ lvalJSON m k ∧ lvalJSON m k ≤ 9 := by
  unfold lvalJSON
  rcases hl : mapLookup m k with _ | r
  · decide
  · have hmem := mapLookup_some_mem hl
    have hwfr := hwf _ hmem
    obtain ⟨d, hd9, heq⟩ := sevDigitsJSON_of_wf hwfr
    simp only [Option.getD_some, heq]
    constructor
    · exact Int.ofNat_nonneg d
    · exact_mod_cast hd9

theorem jsonFold_no_err {m : GoMap} {ord : List String}
    (h : ∀ k ∈ ord, isErrContent m k = false) (s : Int) :
    ord.foldl (jsonScoreStep m) s = s - 5 * (ord.map (lvalJSON m)).sum := by
  induction ord generalizing s with
  | nil => simp
  | cons k rest ih =>
    simp only [List.foldl_cons, List.map_cons, List.sum_cons]
    have hk : isErrContent m k = false := h k (by simp)
    have hstep : jsonScoreStep m s k = s - lvalJSON m k * 5 := by
      simp [jsonScoreStep, hk]
    rw [hstep, ih (fun k' hk' => h k' (by simp [hk']))]
    ring

theorem jsonFold_le_of_nonpos {m : GoMap} {ord : List String}
    (hpos : ∀ k, 0 ≤ lvalJSON m k) {s : Int} (hs : s ≤ 0) :
    ord.foldl (jsonScoreStep m) s ≤ 0 := by
  induction ord generalizing s with
  | nil => simpa
  | cons k rest ih =>
    simp only [List.foldl_cons]
    apply ih
    unfold jsonScoreStep
    by_cases hk : isErrContent m k = true
    · rw [if_pos hk]
    · rw [if_neg hk]
      have := hpos k
      omega

theorem jsonFold_le_of_err {m : GoMap} {ord : List String}
    (hpos : ∀ k, 0 ≤ lvalJSON m k)
    (hex : ∃ k ∈ ord, isErrContent m k = true) (s : Int) :
    ord.foldl (jsonScoreStep m) s ≤ 0 := by
  induction ord generalizing s with
  | nil => simp at hex
  | cons k rest ih =>
    simp only [List.foldl_cons]
    by_cases hk : isErrContent m k = true
    · apply jsonFold_le_of_nonpos hpos
      simp [jsonScoreStep, hk]
    · rcases hex with ⟨k', hk', herr⟩
      rcases List.mem_cons.mp hk' with rfl | hmem
      · exact absurd herr hk
      · exact ih ⟨k', hmem, herr⟩ _

theorem jsonScore_char (m : GoMap) (ord : List String)
    (hwf : ∀ kv ∈ m, sevOKB kv.2.Severity = true) :
    jsonScore m ord =
      if ord.any (fun k => isErrContent m k) = true then 0
      else max 0 (100 - 5 * (ord.map (lvalJSON m)).sum) := by
  have hpos : ∀ k, 0 ≤ lvalJSON m k := fun k => (lvalJSON_bounds hwf k).1
  unfold jsonScore
  by_cases hany : ord.any (fun k => isErrContent m k) = true
  · rw [if_pos hany]
    have hle := jsonFold_le_of_err hpos (List.any_eq_true.mp hany) 100
    by_cases hlt : ord.foldl (jsonScoreStep m) 100 < 0
    · rw [if_pos hlt]
    · rw [if_neg hlt]
      omega
  · rw [if_neg hany]
    have hno : ∀ k ∈ ord, isErrContent m k = false := by
      intro k hk
      cases hx : isErrContent m k
      · rfl
      · exact absurd (List.any_eq_true.mpr ⟨k, hk, hx⟩) hany
    rw [jsonFold_no_err hno]
    by_cases hlt : (100 : Int) - 5 * (ord.map (lvalJSON m)).sum < 0
    · rw [if_pos hlt, max_eq_left (by omega)]
    · rw [if_neg hlt, max_eq_right (by omega)]

theorem jsonScore_perm {m : GoMap} {ord1 ord2 : List String}
    (hperm : ord1.Perm ord2)
    (hwf : ∀ kv ∈ m, sevOKB kv.2.Severity = true) :
    jsonScore m ord1 = jsonScore m ord2 := by
  rw [jsonScore_char m ord1 hwf, jsonScore_char m ord2 hwf]
  have hany : ord1.any (fun k => isErrContent m k)
      = ord2.any (fun k => isErrContent m k) := by
    cases hx : ord1.any (fun k => isErrContent m k)
    · cases hy : ord2.any (fun k => isErrContent m k)
      · rfl
      · exfalso
        rcases List.any_eq_true.mp hy with ⟨k, hk, herr⟩
        have : ord1.any (fun k => isErrContent m k) = true :=
          List.any_eq_true.mpr ⟨k, hperm.mem_iff.mpr hk, herr⟩
        rw [hx] at this
        exact Bool.noConfusion this
    · cases hy : ord2.any (fun k => isErrContent m k)
      · exfalso
        rcases List.any_eq_true.mp hx with ⟨k, hk, herr⟩
        have : ord2.any (fun k => isErrContent m k) = true :=
          List.any_eq_true.mpr ⟨k, hperm.mem_iff.mp hk, herr⟩
        rw [hy] at this
        exact Bool.noConfusion this
      · rfl
  have hsum : (ord1.map (lvalJSON m)).sum = (ord2.map (lvalJSON m)).sum :=
    (hperm.map (lvalJSON m)).sum_eq
  rw [hany, hsum]

/-! ## Claim C6: the json score -/

/-- C6 counterexample: `formatJSON` clamps the score only from below, so a
merged finding whose severity string is `"L-1"` (parsed by
`strconv.Atoi(strings.TrimLeft("L-1","L"))` as `-1`) drives the score to
`105`, outside `[0, 100]`. -/
theorem c6_counterexample :
    (formatJSONStruct extCE "select 1" "" [("CLA.001", rSevNeg)]
        ["CLA.001"]).Score = 105 ∧
      ¬((formatJSONStruct extCE "select 1" "" [("CLA.001", rSevNeg)]
        ["CLA.001"]).Score ≤ 100) := by decide

/-- C6 (amended): provided every finding's severity matches `^L[0-9]$`, the
json score starts at 100, subtracts `severity_digit * 5` for each finding,
becomes 0 whenever an `ERR.*` finding with non-empty `Content` is present,
and the final value lies in `[0, 100]`; with other severity strings the
score is clamped only from below and can exceed 100. -/
theorem c6_amended (ext : Externals) (sql db : String) (m : GoMap)
    (ord : List String)
    (hwf : ∀ kv ∈ m, sevOKB kv.2.Severity = true) :
    (formatJSONStruct ext sql db m ord).Score =
      (if ord.any (fun k => isErrContent m k) = true then 0
       else max 0 (100 - 5 * (ord.map (lvalJSON m)).sum)) ∧
    0 ≤ (formatJSONStruct ext sql db m ord).Score ∧
    (formatJSONStruct ext sql db m ord).Score ≤ 100 := by
  have hsc : (formatJSONStruct ext sql db m ord).Score = jsonScore m ord := rfl
  have hchar := jsonScore_char m ord hwf
  have hposS : ∀ x ∈ ord.map (lvalJSON m), (0 : Int) ≤ x := by
    intro x hx
    rcases List.mem_map.mp hx with ⟨k, _, rfl⟩
    exact (lvalJSON_bounds hwf k).1
  have hsum : (0 : Int) ≤ (ord.map (lvalJSON m)).sum := List.sum_nonneg hposS
  refine ⟨by rw [hsc, hchar], ?_, ?_⟩
  · rw [hsc, hchar]
    by_cases hany : ord.any (fun k => isErrContent m k) = true
    · rw [if_pos hany]
    · rw [if_neg hany]
      exact le_max_left 0 _
  · rw [hsc, hchar]
    by_cases hany : ord.any (fun k => isErrContent m k) = true
    · rw [if_pos hany]; omega
    · rw [if_neg hany]
      apply max_le <;> omega

/-- C6 amended, instantiated: one `L4` finding scores 80, within bounds. -/
theorem c6_amended_witness :
    (formatJSONStruct extCE "q" "" [("CLA.001", rCLA)] ["CLA.001"]).Score
        = 80 ∧
      0 ≤ (formatJSONStruct extCE "q" "" [("CLA.001", rCLA)] ["CLA.001"]).Score ∧
      (formatJSONStruct extCE "q" "" [("CLA.001", rCLA)] ["CLA.001"]).Score
        ≤ 100 := by
  have h := c6_amended extCE "q" "" [("CLA.001", rCLA)] ["CLA.001"] (by decide)
  exact ⟨by rw [h.1]; decide, h.2.1, h.2.2⟩

/-! ## Claim C7: severity parse failure and the score -/

/-- C7 counterexample: in the `json` report a severity that fails to parse
(here `"LX"`) is only logged — the score is NOT set to 0; it stays at 100,
contradicting the claim that every score-computing format zeroes it. -/
theorem c7_counterexample :
    (formatJSONStruct extCE "q" "" [("CLA.001", rSevBad)] ["CLA.001"]).Score
        = 100 ∧ (100 : Int) ≠ 0 := by decide

/-- C7 (amended): in the markdown-family formats an unparsable severity on a
scored finding sets the running score to 0 at that point (later findings may
still subtract); in the `json` format the parse failure is only logged and
the finding contributes nothing, the score is not zeroed. -/
theorem c7_amended (ext : Externals) (cfg : Config)
    (sql id fp format db k : String) (r : Rule)
    (hmd : sevDigitsMD r.Severity = (0, false))
    (hjs : sevDigitsJSON r.Severity = (0, false))
    (hok : (k == "OK") = false)
    (h1 : goHasPrefix k "ERR" = false) (h2 : goHasPrefix k "EXP" = false)
    (h3 : goHasPrefix k "PRO" = false) (h4 : goHasPrefix k "TRA" = false)
    (h5 : goHasPrefix k "IDX" = false)
    (hexp0 : (k == "EXP.000") = false) :
    (mdBranch ext cfg sql id fp format [(k, r)]).2.2 = 0 ∧
      (formatJSONStruct ext sql db [(k, r)] [k]).Score = 100 := by
  constructor
  · simp only [mdBranch, mapKeys, List.map_cons, List.map_nil, isErrContent,
      mapLookup, List.find?, beq_self_eq_true, Option.map_some',
      Option.getD_some, List.filter, h1, h2, h3, h4, h5, hexp0,
      Bool.and_eq_true, Bool.not_false, Bool.not_true, heurStep, idxStep,
      sortStrings, List.foldr, insertSorted, List.foldl, hok, hmd]
    simp [h1, h2, h3, h5, hmd]
  · have hsc : (formatJSONStruct ext sql db [(k, r)] [k]).Score
        = jsonScore [(k, r)] [k] := rfl
    rw [hsc]
    unfold jsonScore jsonScoreStep lvalJSON isErrContent
    simp [mapLookup, List.find?, hjs, h1]

/-- C7 amended, instantiated with the severity `"LX"`. -/
theorem c7_amended_witness :
    (mdBranch extCE ⟨[], "text", ""⟩ "q" "id" "fp" "markdown"
        [("CLA.001", rSevBad)]).2.2 = 0 ∧
      (formatJSONStruct extCE "q" "" [("CLA.001", rSevBad)]
        ["CLA.001"]).Score = 100 :=
  c7_amended extCE ⟨[], "text", ""⟩ "q" "id" "fp" "markdown" "" "CLA.001"
    rSevBad (by decide) (by decide) (by decide) (by decide) (by decide)
    (by decide) (by decide) (by decide) (by decide)

/-! ## Claim C8: ERR findings with empty Content -/

/-- C8 counterexample: an `ERR.001` placeholder with empty `Content` and
severity `L8` is NOT dropped before scoring in the `json` report — it
subtracts 40, yielding a score of 60 where the claim requires 100. -/
theorem c8_counterexample :
    (formatJSONStruct extCE "q" "" [("ERR.001", rErrEmpty)]
        ["ERR.001"]).Score = 60 ∧ (60 : Int) ≠ 100 := by decide

/-- C8 (amended): `ERR.*` findings with empty `Content` are dropped before
scoring, rendering and return only in the markdown-family formats; in the
`json` format they are excluded from the `HeuristicRules` array but still
contribute `severity * 5` to the score. -/
theorem c8_amended (ext : Externals) (cfg : Config)
    (pairs : List (String × String)) (sql db format : String)
    (suggests : List GoMap) (ord : List String)
    (hfmt : isMDFamily format = true) :
    (∀ k r,
      mapLookup (FormatSuggest ext cfg pairs sql db format suggests ord).1 k
          = some r →
        ¬(goHasPrefix k "ERR" = true ∧ r.Content = "")) ∧
    (∀ (ext2 : Externals) (sql2 db2 k : String) (r : Rule),
      goHasPrefix k "ERR" = true → r.Content = "" → r.Severity = "L8" →
      goHasPrefix k "EXP" = false → goHasPrefix k "IDX" = false →
      (formatJSONStruct ext2 sql2 db2 [(k, r)] [k]).Score = 60 ∧
        (formatJSONStruct ext2 sql2 db2 [(k, r)] [k]).HeuristicRules = []) := by
  constructor
  · intro k r h
    rw [FormatSuggest_fst, if_pos hfmt] at h
    have hpre := mdResultMap_mem (mapLookup_some_mem h)
    rintro ⟨herr, _⟩
    rw [hpre.1] at herr
    exact Bool.noConfusion herr
  · intro ext2 sql2 db2 k r herr hcont hsev hexp hidx
    constructor
    · have hsc : (formatJSONStruct ext2 sql2 db2 [(k, r)] [k]).Score
          = jsonScore [(k, r)] [k] := rfl
      rw [hsc]
      unfold jsonScore jsonScoreStep lvalJSON isErrContent
      simp only [mapLookup, List.find?, beq_self_eq_true, Option.map_some',
        Option.getD_some, List.foldl, hsev, hcont, herr]
      decide
    · simp only [formatJSONStruct, mapKeys, List.map_cons, List.map_nil,
        mapLookup, List.find?, beq_self_eq_true, Option.map_some',
        Option.getD_some, List.filter, herr, hcont, hexp, hidx]
      simp [sortStrings]

/-- C8 amended, instantiated: in a markdown report a surviving heuristic
finding is not an empty `ERR.*` placeholder, and in json the `ERR.001`
placeholder scores 60 while being absent from `HeuristicRules`. -/
theorem c8_amended_witness :
    (¬(goHasPrefix "CLA.001" "ERR" = true ∧ rCLA.Content = "")) ∧
      (formatJSONStruct extCE "q" "" [("ERR.001", rErrEmpty)]
          ["ERR.001"]).Score = 60 ∧
      (formatJSONStruct extCE "q" "" [("ERR.001", rErrEmpty)]
          ["ERR.001"]).HeuristicRules = [] := by
  have h := c8_amended extCE ⟨[], "text", ""⟩ [] "q" "" "markdown"
    [[("CLA.001", rCLA)]] [] (by decide)
  exact ⟨h.1 "CLA.001" rCLA (by decide),
    h.2 extCE "q" "" "ERR.001" rErrEmpty (by decide) (by decide) (by decide)
      (by decide) (by decide)⟩

/-! ## Claim C2: determinism of FormatSuggest -/

theorem FormatSuggest_md_eq (ext : Externals) (cfg : Config)
    (pairs : List (String × String)) (sql db format : String)
    (suggests : List GoMap) (ord : List String)
    (h4 : isMDFamily format = true) (h1 : format ≠ "json")
    (h2 : format ≠ "text") (h3 : format ≠ "lint") :
    FormatSuggest ext cfg pairs sql db format suggests ord =
      ((mdBranch ext cfg sql
          (if sql != "" then ext.idOf (ext.fingerprint sql) else "")
          (if sql != "" then ext.fingerprint sql else "") format
          (mergedFindings cfg pairs suggests)).1,
        assemble ext cfg
          (mdBranch ext cfg sql
            (if sql != "" then ext.idOf (ext.fingerprint sql) else "")
            (if sql != "" then ext.fingerprint sql else "") format
            (mergedFindings cfg pairs suggests)).2.2
          (mdBranch ext cfg sql
            (if sql != "" then ext.idOf (ext.fingerprint sql) else "")
            (if sql != "" then ext.fingerprint sql else "") format
            (mergedFindings cfg pairs suggests)).2.1) := by
  unfold FormatSuggest
  have e1 : (format == "json") = false := by simp [h1]
  have e2 : (format == "text") = false := by simp [h2]
  have e3 : (format == "lint") = false := by simp [h3]
  simp only [e1, e2, e3, h4, Bool.false_eq_true, if_false, if_true]

theorem FormatSuggest_json_snd (ext : Externals) (cfg : Config)
    (pairs : List (String × String)) (sql db : String)
    (suggests : List GoMap) (ord : List String) :
    (FormatSuggest ext cfg pairs sql db "json" suggests ord).2 =
      assemble ext cfg 100
        [marshalJSONSuggest (formatJSONStruct ext sql db
          (mergedFindings cfg pairs suggests) ord)] := rfl

/-- C2 counterexample: in the `text` format the rendering loop iterates the
merged map directly (lines 1303-1311), so with two findings the two valid
iteration orders — Go randomizes map range order between runs — produce
different rendered strings for identical inputs and configuration. -/
theorem c2_counterexample :
    mapKeys (mergedFindings ⟨[], "text", ""⟩ []
        [[("CLA.001", rCLA), ("COL.001", rCOL)]]) = ["CLA.001", "COL.001"] ∧
      (FormatSuggest extCE ⟨[], "text", ""⟩ [] "select 1" "" "text"
          [[("CLA.001", rCLA), ("COL.001", rCOL)]]
          ["CLA.001", "COL.001"]).2 ≠
        (FormatSuggest extCE ⟨[], "text", ""⟩ [] "select 1" "" "text"
          [[("CLA.001", rCLA), ("COL.001", rCOL)]]
          ["COL.001", "CLA.001"]).2 := by decide

/-- C2 (amended): for fixed inputs and configuration the merged FindingSet
returned by `FormatSuggest` does not depend on the map iteration order, in
every format; the rendered string is also order-independent in the
markdown-family formats, and in the `json` format whenever all severities
are well-formed; in the `text`, `lint` and default formats the string
follows the randomized iteration order and may differ between invocations. -/
theorem c2_amended (ext : Externals) (cfg : Config)
    (pairs : List (String × String)) (sql db format : String)
    (suggests : List GoMap) (ord1 ord2 : List String) :
    ((FormatSuggest ext cfg pairs sql db format suggests ord1).1 =
      (FormatSuggest ext cfg pairs sql db format suggests ord2).1) ∧
    (isMDFamily format = true →
      (FormatSuggest ext cfg pairs sql db format suggests ord1).2 =
        (FormatSuggest ext cfg pairs sql db format suggests ord2).2) ∧
    (format = "json" → ord1.Perm ord2 →
      (∀ kv ∈ mergedFindings cfg pairs suggests, sevOKB kv.2.Severity = true) →
      (FormatSuggest ext cfg pairs sql db format suggests ord1).2 =
        (FormatSuggest ext cfg pairs sql db format suggests ord2).2) := by
  refine ⟨?_, ?_, ?_⟩
  · rw [FormatSuggest_fst, FormatSuggest_fst]
  · intro h
    have hd : format = "markdown" ∨ format = "html" ∨
        format = "explain-digest" ∨ format = "duplicate-key-checker" := by
      simp only [isMDFamily, Bool.or_eq_true, beq_iff_eq] at h
      tauto
    rcases hd with rfl | rfl | rfl | rfl <;>
      rw [FormatSuggest_md_eq _ _ _ _ db _ _ _ (by decide) (by decide)
            (by decide) (by decide),
          FormatSuggest_md_eq _ _ _ _ db _ _ _ (by decide) (by decide)
            (by decide) (by decide)]
  · rintro rfl hperm hwf
    rw [FormatSuggest_json_snd, FormatSuggest_json_snd]
    have hstruct : formatJSONStruct ext sql db
        (mergedFindings cfg pairs suggests) ord1 =
          formatJSONStruct ext sql db
            (mergedFindings cfg pairs suggests) ord2 := by
      unfold formatJSONStruct
      rw [jsonScore_perm hperm hwf]
    rw [hstruct]

/-- C2 amended, instantiated: identical `json` strings for the two iteration
orders of a two-finding set. -/
theorem c2_amended_witness :
    (FormatSuggest extCE ⟨[], "text", ""⟩ [] "select 1" "" "json"
        [[("CLA.001", rCLA), ("COL.001", rCOL)]] ["CLA.001", "COL.001"]).2 =
      (FormatSuggest extCE ⟨[], "text", ""⟩ [] "select 1" "" "json"
        [[("CLA.001", rCLA), ("COL.001", rCOL)]] ["COL.001", "CLA.001"]).2 :=
  (c2_amended extCE ⟨[], "text", ""⟩ [] "select 1" "" "json"
      [[("CLA.001", rCLA), ("COL.001", rCOL)]]
      ["CLA.001", "COL.001"] ["COL.001", "CLA.001"]).2.2 rfl
    (List.Perm.swap "COL.001" "CLA.001" []) (by decide)
